import Mathlib

/-!
# Verification of the spex async control-flow drivers

Shallow embedding of the `sequence` driver (lib/ext/sequence.js), the `page`
driver (lib/ext/page.js) and the `extend` utility (lib/utils/static.js),
together with proofs of the behavioural laws stated in the specification.

The drivers are continuation-passing JavaScript; they are embedded here as a
fuel-indexed step interpreter over an explicit run state.  Each driver
iteration performs exactly what the corresponding `loop(idx)` body performs:
it timestamps the call, consults the mixed-value resolver on the source,
optionally invokes the sink, and then either settles the run (resolve/reject)
or continues with `idx + 1`.  Wall-clock reads (`Date.now()`) are modelled by
an abstract timestamp stream `clock : Nat → Int` sampled at an incrementing
tick counter; the driver never assumes anything about it beyond what the
code does.

The mixed-value resolver (`lib/utils/resolve.js`) and the `batch` combinator
(`lib/ext/batch.js`) are not part of the given sources; they are modelled
from the spec at the boundary where the drivers observe them (see `Res` and
`BatchRes`).  The drivers themselves are translated from the given sources.
-/

namespace Spex

/-- JavaScript values at the granularity the two drivers inspect them:
the drivers compare against `undefined`, test `value instanceof Array`,
and otherwise treat values opaquely. -/
inductive JSVal where
  | undef
  | nullv
  | boolean (b : Bool)
  | num (n : Int)
  | str (s : String)
  | arr (elems : List JSVal)
  | errObj (msg : String)
  | obj (id : Nat)

/-- Modelled from the spec (§4.D): the mixed-value resolver
(`lib/utils/resolve.js`, not under the given sources) settles each driver
call either successfully, reporting the resolved `value` and whether
settlement was `delayed` (required awaiting a deferred), or with a failure,
reporting the `reason` and `isRej`, which per §4.D is `true` exactly when
the failure came from a deferred rejection and `false` when the callable
threw.  A driver run is parameterised by the resolver outcome of each call. -/
inductive Res where
  | ok (value : JSVal) (delayed : Bool)
  | err (reason : JSVal) (isRej : Bool)

/-- The `value === undefined` test both drivers perform on the resolved
value. -/
def JSVal.isUndef : JSVal → Bool
  | .undef => true
  | _ => false

/-- The resolved value of a successful resolver outcome (`JSVal.nullv` as a
junk value on the failure constructor, distinct from `undefined` so that
`okValue r = .undef` holds iff `r` resolved with `undefined`). -/
def Res.okValue : Res → JSVal
  | .ok v _ => v
  | .err _ _ => .nullv

/-- Whether a resolver outcome is a success. -/
def Res.isOk : Res → Bool
  | .ok _ _ => true
  | .err _ _ => false

/-- The `delayed` flag of a successful resolver outcome. -/
def Res.okDelayed : Res → Bool
  | .ok _ d => d
  | .err _ _ => false

/-- Behaviour of one direct sink (`dest`) invocation as the drivers observe
it: the call can throw, return a value satisfying `isPromise` that later
settles (`rejection = none` for a resolution, `some e` for a rejection
reason `e`), or return a non-promise value (which both drivers ignore). -/
inductive DestBehavior where
  | throws (e : JSVal)
  | retPromise (rejection : Option JSVal)
  | retPlain

/-- How the next `loop(idx)` call is scheduled by `next()` in the sequence
driver: `direct` is plain recursion (`loop(idx)`), `microtask` is the
yield-to-scheduler chain (`$p.resolve().then(() => loop(idx))`). -/
inductive Sched where
  | direct
  | microtask
deriving DecidableEq, Repr

/-- `next(arg)` in the sequence driver picks the scheduling of the next
iteration from its argument: `if (delayed) loop(idx) else $p.resolve().then(...)`. -/
def schedOf (arg : Bool) : Sched := if arg then .direct else .microtask

/-- Ghost record of one scheduling decision of the sequence driver:
`delayed` is what the resolver reported for this iteration's source call,
`asyncDest` is whether `next` was reached from the `.then` of a
promise-returning sink (in which case the code calls `next(true)`). -/
structure SchedRecord where
  delayed : Bool
  asyncDest : Bool
  sched : Sched
deriving DecidableEq, Repr

/-- Ghost record of one callback invocation: the `index`, `data` and `delay`
arguments the driver passed. -/
structure SrcCall where
  index : Nat
  data : JSVal
  delay : Option Int

/-- Ghost trace of one driver iteration: the source call made, the sink call
if one was made, and the scheduling decision if the run continued past this
iteration. -/
structure IterRec where
  call : SrcCall
  destCall : Option SrcCall
  sched : Option SchedRecord

/-- The structured data a `SequenceError` / `PageError` is built from at the
`fail(reason, code, cbName, duration)` call sites of the drivers: the
underlying `error`, the failing `index`, the small integer reason `code`,
the optional `source` / `dest` properties of the reason object, and the
`duration`.  (The constructors themselves, in `lib/errors/`, additionally
derive a message and reason text from `code` and `cbName`; the claims are
about the structured fields set at the call sites.) -/
structure DriverError where
  error : JSVal
  index : Nat
  code : Nat
  source : Option JSVal
  dest : Option JSVal
  duration : Int

/-- Property descriptor produced by `Object.defineProperty` in
`extend` (lib/utils/static.js). -/
structure PropDescriptor where
  value : Int
  configurable : Bool
  enumerable : Bool
  writable : Bool
deriving DecidableEq, Repr

/-- `extend(obj, name, value)` of lib/utils/static.js: defines the property
with `{value, configurable: false, enumerable: false, writable: false}`. -/
def extend (value : Int) : PropDescriptor :=
  { value := value, configurable := false, enumerable := false, writable := false }

/-- Successful resolution value of the sequence driver: `{total, duration}`
when `track` is false, the tracked array extended (via `extend`) with the
hidden `duration` property when `track` is true. -/
inductive SeqValue where
  | totals (total : Nat) (duration : Int)
  | tracked (values : List JSVal) (durationProp : PropDescriptor)

/-- Settlement of a sequence run. -/
inductive SeqOutcome where
  | ok (v : SeqValue)
  | fail (e : DriverError)

/-- Mutable run state of `sequence`: the `Date.now()` tick counter `t`, the
`srcTime`/`destTime` timestamps, the last resolved `data`, and the tracked
`result` array. -/
structure SeqState where
  t : Nat
  srcTime : Int
  destTime : Int
  data : JSVal
  result : List JSVal

/-- Parameters of a sequence run: the resolver outcome of each source call
(indexed by iteration, since the driver determines the other arguments),
the sink and its behaviour per iteration if provided, the normalized
`limit`, the `track` flag, and the timestamp stream. -/
structure SeqConfig where
  src : Nat → Res
  dst : Option (Nat → DestBehavior)
  limit : Nat
  track : Bool
  clock : Nat → Int

/-- Result of one driver-loop iteration: settle the run (`done`) carrying
the settlement, the post-iteration state and the iteration trace record, or
continue with index `idx + 1` (`more`). -/
inductive StepRes (sig out : Type) where
  | done (o : out) (st : sig) (rec : IterRec)
  | more (st : sig) (rec : IterRec)

/-- The trace record of a step, whichever way it went. -/
def StepRes.record {sig out : Type} : StepRes sig out → IterRec
  | .done _ _ r => r
  | .more _ r => r

/-- The shared pull-loop shape of both drivers, fuel-indexed: each unit of
fuel funds one iteration of the given step function; `none` means the fuel
ran out before the run settled.  Returns the settlement, the final state,
and the ghost iteration trace (one record per iteration, in order). -/
def runLoop {sig out : Type} (step : Nat → sig → StepRes sig out) :
    Nat → Nat → sig → Option (out × sig × List IterRec)
  | 0, _, _ => none
  | fuel + 1, idx, st =>
    match step idx st with
    | .done o st1 rec => some (o, st1, [rec])
    | .more st1 rec =>
      match runLoop step fuel (idx + 1) st1 with
      | none => none
      | some (o, st2, recs) => some (o, st2, rec :: recs)

/-- `success()` of the sequence driver: computes the duration and resolves
with `{total: idx, duration}` or with the tracked array extended with
`duration`. -/
def seqSuccess (cfg : SeqConfig) (start : Int) (idx : Nat) (st : SeqState)
    (rec : IterRec) : StepRes SeqState SeqOutcome :=
  let dur := cfg.clock st.t - start
  let st1 : SeqState := { st with t := st.t + 1 }
  if cfg.track then
    .done (.ok (.tracked st.result (extend dur))) st1 rec
  else
    .done (.ok (.totals idx dur)) st1 rec

/-- `next(arg)` of the sequence driver: on `limit === ++idx` resolve,
otherwise schedule the next iteration — directly when the argument is true,
through `$p.resolve().then(...)` when it is false.  `resolverDelayed` is the
ghost copy of what the resolver reported (the code calls `next(true)` from a
promise-returning sink and `next(delayed)` otherwise). -/
def seqNext (cfg : SeqConfig) (start : Int) (idx : Nat) (st : SeqState)
    (call : SrcCall) (dcall : Option SrcCall)
    (resolverDelayed arg asyncDest : Bool) : StepRes SeqState SeqOutcome :=
  if cfg.limit = idx + 1 then
    seqSuccess cfg start (idx + 1) st ⟨call, dcall, none⟩
  else
    .more st ⟨call, dcall, some ⟨resolverDelayed, asyncDest, schedOf arg⟩⟩

/-- One iteration of the sequence driver's `loop(idx)` (lines 98–182 of the
source): timestamp the source call, resolve it, then on success either
finish (`undefined`), track the value, run the sink and advance; on failure
reject with the corresponding reason object and code. -/
def seqStep (cfg : SeqConfig) (start : Int) (idx : Nat) (st : SeqState) :
    StepRes SeqState SeqOutcome :=
  let srcNow := cfg.clock st.t
  let srcDelay : Option Int := if idx = 0 then none else some (srcNow - st.srcTime)
  let call : SrcCall := ⟨idx, st.data, srcDelay⟩
  let st1 : SeqState := { st with t := st.t + 1, srcTime := srcNow }
  match cfg.src idx with
  | .err reason isRej =>
      .done (.fail { error := reason, index := idx, code := if isRej then 0 else 1,
                     source := some st.data, dest := none,
                     duration := cfg.clock st1.t - start })
            { st1 with t := st1.t + 1 } ⟨call, none, none⟩
  | .ok value delayed =>
      let st2 : SeqState := { st1 with data := value }
      if value.isUndef then
        seqSuccess cfg start idx st2 ⟨call, none, none⟩
      else
        let st3 : SeqState :=
          if cfg.track then { st2 with result := st2.result ++ [value] } else st2
        match cfg.dst with
        | none => seqNext cfg start idx st3 call none delayed delayed false
        | some dd =>
            let destNow := cfg.clock st3.t
            let destDelay : Option Int := if idx = 0 then none else some (destNow - st3.destTime)
            let dcall : SrcCall := ⟨idx, value, destDelay⟩
            let st4 : SeqState := { st3 with t := st3.t + 1, destTime := destNow }
            match dd idx with
            | .throws e =>
                .done (.fail { error := e, index := idx, code := 3,
                               source := none, dest := some value,
                               duration := cfg.clock st4.t - start })
                      { st4 with t := st4.t + 1 } ⟨call, some dcall, none⟩
            | .retPromise (some e) =>
                .done (.fail { error := e, index := idx, code := 2,
                               source := none, dest := some value,
                               duration := cfg.clock st4.t - start })
                      { st4 with t := st4.t + 1 } ⟨call, some dcall, none⟩
            | .retPromise none => seqNext cfg start idx st4 call (some dcall) delayed true true
            | .retPlain => seqNext cfg start idx st4 call (some dcall) delayed delayed false

/-- The sequence driver's pull loop. -/
def seqLoop (cfg : SeqConfig) (start : Int) :
    Nat → Nat → SeqState → Option (SeqOutcome × SeqState × List IterRec) :=
  runLoop (seqStep cfg start)

/-- Initial sequence state: `start = Date.now()` is tick 0, so the loop
begins at tick 1; `data` is `undefined` before the first resolution. -/
def seqInit : SeqState :=
  { t := 1, srcTime := 0, destTime := 0, data := .undef, result := [] }

/-- A whole sequence run from `loop(0)`. -/
def seqRun (cfg : SeqConfig) (fuel : Nat) : Option (SeqOutcome × SeqState × List IterRec) :=
  seqLoop cfg (cfg.clock 0) fuel 0 seqInit

/-! ## The page driver (lib/ext/page.js) -/

/-- Modelled from the spec (§4.F): `batch` (lib/ext/batch.js, not under the
given sources) either resolves with the outcome-row array for the page or
rejects with a `BatchError`.  The page driver observes nothing else of it,
so a page run is parameterised by the batch settlement of each page. -/
inductive BatchRes where
  | ok (rows : List JSVal)
  | err (e : JSVal)

/-- Mutable run state of `page`: tick counter, timestamps, the previous
page's batch outcome (`request`, `undefined` before the first page) and the
accumulated `total`. -/
structure PageState where
  t : Nat
  srcTime : Int
  destTime : Int
  request : JSVal
  total : Nat

/-- Parameters of a page run: resolver outcome of each source call, batch
settlement of each page, sink behaviour if provided, normalized `limit`,
and the timestamp stream. -/
structure PageConfig where
  src : Nat → Res
  batch : Nat → List JSVal → BatchRes
  dst : Option (Nat → DestBehavior)
  limit : Nat
  clock : Nat → Int

/-- Successful resolution value of the page driver: `{pages, total, duration}`. -/
structure PageSuccess where
  pages : Nat
  total : Nat
  duration : Int

/-- Settlement of a page run. -/
inductive PageOutcome where
  | ok (v : PageSuccess)
  | fail (e : DriverError)

/-- `success()` of the page driver: resolve with `{pages: idx, total, duration}`. -/
def pageSuccess (cfg : PageConfig) (start : Int) (idx : Nat) (st : PageState)
    (rec : IterRec) : StepRes PageState PageOutcome :=
  .done (.ok { pages := idx, total := st.total, duration := cfg.clock st.t - start })
        { st with t := st.t + 1 } rec

/-- `next()` of the page driver: on `limit === ++idx` resolve, otherwise
`loop(idx)` directly (the page driver has no scheduling guard). -/
def pageNext (cfg : PageConfig) (start : Int) (idx : Nat) (st : PageState)
    (rec : IterRec) : StepRes PageState PageOutcome :=
  if cfg.limit = idx + 1 then pageSuccess cfg start (idx + 1) st rec
  else .more st rec

/-- One iteration of the page driver's `loop(idx)` (lines 89–172 of
lib/ext/page.js): timestamp and resolve the source call; on `undefined`
resolve, on a non-array reject with code 5, otherwise batch the page,
accumulate `total`, run the sink, and advance. -/
def pageStep (cfg : PageConfig) (start : Int) (idx : Nat) (st : PageState) :
    StepRes PageState PageOutcome :=
  let srcNow := cfg.clock st.t
  let srcDelay : Option Int := if idx = 0 then none else some (srcNow - st.srcTime)
  let call : SrcCall := ⟨idx, st.request, srcDelay⟩
  let st1 : PageState := { st with t := st.t + 1, srcTime := srcNow }
  match cfg.src idx with
  | .err reason isRej =>
      .done (.fail { error := reason, index := idx, code := if isRej then 1 else 2,
                     source := some st.request, dest := none,
                     duration := cfg.clock st1.t - start })
            { st1 with t := st1.t + 1 } ⟨call, none, none⟩
  | .ok value _delayed =>
      if value.isUndef then
        pageSuccess cfg start idx st1 ⟨call, none, none⟩
      else
        match value with
        | .arr elems =>
          match cfg.batch idx elems with
          | .err e =>
              .done (.fail { error := e, index := idx, code := 0,
                             source := none, dest := none,
                             duration := cfg.clock st1.t - start })
                    { st1 with t := st1.t + 1 } ⟨call, none, none⟩
          | .ok rows =>
              let st2 : PageState :=
                { st1 with request := .arr rows, total := st1.total + rows.length }
              match cfg.dst with
              | none => pageNext cfg start idx st2 ⟨call, none, none⟩
              | some dd =>
                  let destNow := cfg.clock st2.t
                  let destDelay : Option Int :=
                    if idx = 0 then none else some (destNow - st2.destTime)
                  let dcall : SrcCall := ⟨idx, .arr rows, destDelay⟩
                  let st3 : PageState := { st2 with t := st2.t + 1, destTime := destNow }
                  match dd idx with
                  | .throws e =>
                      .done (.fail { error := e, index := idx, code := 4,
                                     source := none, dest := some (.arr rows),
                                     duration := cfg.clock st3.t - start })
                            { st3 with t := st3.t + 1 } ⟨call, some dcall, none⟩
                  | .retPromise (some e) =>
                      .done (.fail { error := e, index := idx, code := 3,
                                     source := none, dest := some (.arr rows),
                                     duration := cfg.clock st3.t - start })
                            { st3 with t := st3.t + 1 } ⟨call, some dcall, none⟩
                  | .retPromise none => pageNext cfg start idx st3 ⟨call, some dcall, none⟩
                  | .retPlain => pageNext cfg start idx st3 ⟨call, some dcall, none⟩
        | _ =>
            .done (.fail { error := .errObj "Unexpected data returned from the source.",
                           index := idx, code := 5,
                           source := some st1.request, dest := none,
                           duration := cfg.clock st1.t - start })
                  { st1 with t := st1.t + 1 } ⟨call, none, none⟩

/-- The page driver's pull loop. -/
def pageLoop (cfg : PageConfig) (start : Int) :
    Nat → Nat → PageState → Option (PageOutcome × PageState × List IterRec) :=
  runLoop (pageStep cfg start)

/-- Initial page state: `request` is `undefined` before the first page. -/
def pageInit : PageState :=
  { t := 1, srcTime := 0, destTime := 0, request := .undef, total := 0 }

/-- A whole page run from `loop(0)`. -/
def pageRun (cfg : PageConfig) (fuel : Nat) : Option (PageOutcome × PageState × List IterRec) :=
  pageLoop cfg (cfg.clock 0) fuel 0 pageInit

/-! ## Limit normalization and the exported call forms -/

/-- Truncation toward zero, the effect of JavaScript `parseInt` on a
(non-exponent-notation) number argument. -/
def ratTrunc (q : ℚ) : Int := if 0 ≤ q then ⌊q⌋ else -⌊-q⌋

/-- `limit = (limit > 0) ? parseInt(limit) : 0` — line 90 of the sequence
source and line 81 of lib/ext/page.js.  `none` stands for an absent
(`undefined`) limit, for which `limit > 0` is false. -/
def normalizeLimit : Option ℚ → Nat
  | none => 0
  | some q => if 0 < q then (ratTrunc q).toNat else 0

/-- The positional `sequence(source, dest, limit, track)` call: normalize
the limit and run the pull loop. -/
def sequence (src : Nat → Res) (dst : Option (Nat → DestBehavior)) (limit : Option ℚ)
    (track : Bool) (clock : Nat → Int) (fuel : Nat) :
    Option (SeqOutcome × SeqState × List IterRec) :=
  seqRun { src := src, dst := dst, limit := normalizeLimit limit,
           track := track, clock := clock } fuel

/-- The positional `page(source, dest, limit)` call. -/
def page (src : Nat → Res) (batch : Nat → List JSVal → BatchRes)
    (dst : Option (Nat → DestBehavior)) (limit : Option ℚ)
    (clock : Nat → Int) (fuel : Nat) :
    Option (PageOutcome × PageState × List IterRec) :=
  pageRun { src := src, batch := batch, dst := dst,
            limit := normalizeLimit limit, clock := clock } fuel

/-- The second argument of the exported `sequence`/`page` functions, as the
`dest && typeof dest === 'object'` detection distinguishes it: absent,
`null`, a callable, or a non-null non-callable object carrying option
fields. -/
inductive SecondArg where
  | undef
  | nullv
  | fn (d : Nat → DestBehavior)
  | options (dest : Option (Nat → DestBehavior)) (limit : Option ℚ) (track : Bool)

/-- JavaScript truthiness of the second argument (`dest && ...`). -/
def SecondArg.truthy : SecondArg → Bool
  | .undef => false
  | .nullv => false
  | .fn _ => true
  | .options _ _ _ => true

/-- `typeof dest === 'object'` for the second argument (`typeof null` is
`'object'`; `typeof` of a callable is `'function'`). -/
def SecondArg.typeofObject : SecondArg → Bool
  | .undef => false
  | .nullv => true
  | .fn _ => false
  | .options _ _ _ => true

/-- The second argument used positionally as the sink (`$utils.wrap` leaves
only callables usable as a sink). -/
def SecondArg.asDest : SecondArg → Option (Nat → DestBehavior)
  | .fn d => some d
  | _ => none

/-- Property access `dest.dest` on the second argument (`undefined` — i.e.
`none` — on anything but an options object). -/
def SecondArg.optDest : SecondArg → Option (Nat → DestBehavior)
  | .options d _ _ => d
  | _ => none

/-- Property access `dest.limit` on the second argument. -/
def SecondArg.optLimit : SecondArg → Option ℚ
  | .options _ l _ => l
  | _ => none

/-- Property access `dest.track` on the second argument (`undefined` is
falsy). -/
def SecondArg.optTrack : SecondArg → Bool
  | .options _ _ tr => tr
  | _ => false

/-- The exported sequence function (lines 188–196 of the sequence source):
`if (dest && typeof dest === 'object') sequence(source, dest.dest,
dest.limit, dest.track) else sequence(source, dest, limit, track)`. -/
def sequenceExport (src : Nat → Res) (arg : SecondArg) (limit : Option ℚ) (track : Bool)
    (clock : Nat → Int) (fuel : Nat) : Option (SeqOutcome × SeqState × List IterRec) :=
  if arg.truthy && arg.typeofObject then
    sequence src arg.optDest arg.optLimit arg.optTrack clock fuel
  else
    sequence src arg.asDest limit track clock fuel

/-- The exported page function (lines 178–186 of lib/ext/page.js):
`if (dest && typeof dest === 'object') page(source, dest.dest, dest.limit)
else page(source, dest, limit)`. -/
def pageExport (src : Nat → Res) (batch : Nat → List JSVal → BatchRes) (arg : SecondArg)
    (limit : Option ℚ) (clock : Nat → Int) (fuel : Nat) :
    Option (PageOutcome × PageState × List IterRec) :=
  if arg.truthy && arg.typeofObject then
    page src batch arg.optDest arg.optLimit clock fuel
  else
    page src batch arg.asDest limit clock fuel

/-- The `data` argument the sequence loop holds at iteration `i`:
`undefined` at `i = 0`, the value resolved at `i - 1` afterwards. -/
def seqDataInv (cfg : SeqConfig) (i : Nat) (s : SeqState) : Prop :=
  (i = 0 → s.data = JSVal.undef) ∧ (0 < i → s.data = (cfg.src (i - 1)).okValue)

/-- The batch outcome value of page `i` as the driver stores it into
`request` (`.arr rows` when the source resolved an array whose batch
resolved with `rows`; junk `.nullv` otherwise). -/
def pageBatchValue (cfg : PageConfig) (i : Nat) : JSVal :=
  match cfg.src i with
  | .ok (.arr elems) _ =>
    match cfg.batch i elems with
    | .ok rows => .arr rows
    | .err _ => .nullv
  | _ => .nullv

/-- The `request` the page loop holds at iteration `i`: `undefined` at
`i = 0`, the batch outcome of page `i - 1` afterwards. -/
def pageReqInv (cfg : PageConfig) (i : Nat) (s : PageState) : Prop :=
  (i = 0 → s.request = JSVal.undef) ∧ (0 < i → s.request = pageBatchValue cfg (i - 1))

/-! ## Projections used to state concrete run facts -/

/-- The `total` of a sequence run that resolved with `{total, duration}`. -/
def seqOkTotalOf : Option (SeqOutcome × SeqState × List IterRec) → Option Nat
  | some (.ok (.totals n _), _, _) => some n
  | _ => none

/-- Whether a sequence run resolved with `{total, duration}` and a
non-negative duration. -/
def seqDurNonneg : Option (SeqOutcome × SeqState × List IterRec) → Bool
  | some (.ok (.totals _ d), _, _) => decide (0 ≤ d)
  | _ => false

/-- The reason code of a rejected page run. -/
def pageFailCode : Option (PageOutcome × PageState × List IterRec) → Option Nat
  | some (.fail e, _, _) => some e.code
  | _ => none

/-- The `(code, index, error, source, dest)` of a rejected page run. -/
def pageFailData : Option (PageOutcome × PageState × List IterRec) →
    Option (Nat × Nat × JSVal × Option JSVal × Option JSVal)
  | some (.fail e, _, _) => some (e.code, e.index, e.error, e.source, e.dest)
  | _ => none

/-- A sink that neither throws nor returns a rejected promise at call `j`
(vacuously true without a sink). -/
def destBenign (cfg : SeqConfig) (j : Nat) : Prop :=
  ∀ dd, cfg.dst = some dd → dd j = .retPlain ∨ dd j = .retPromise none

/-! ## Concrete sample runs witnessing the claims -/

/-- Whether a sequence resolution value is the tracked-array form. -/
def SeqValue.isTracked : SeqValue → Bool
  | .tracked _ _ => true
  | .totals _ _ => false

/-- Source resolving `0, 0, undefined`, all synchronously, no sink. -/
def seqSyncSample : SeqConfig :=
  { src := fun i => if i < 2 then .ok (.num 0) false else .ok .undef false,
    dst := none, limit := 0, track := false, clock := fun _ => 0 }

/-- Page source whose failure is a deferred rejection (`isRej = true`). -/
def pageRejSample : PageConfig :=
  { src := fun _ => .err (.str "r") true, batch := fun _ e => .ok e,
    dst := none, limit := 0, clock := fun _ => 0 }

/-- Sequence source resolving plain values under limit 2. -/
def seqLimitSample : SeqConfig :=
  { src := fun _ => .ok (.num 0) false, dst := none, limit := 2, track := false,
    clock := fun _ => 0 }

/-- Page source resolving one-element pages under limit 2. -/
def pageLimitSample : PageConfig :=
  { src := fun _ => .ok (.arr [.num 0]) false, batch := fun _ e => .ok e,
    dst := none, limit := 2, clock := fun _ => 0 }

/-- Source resolving `0, 0, 0, undefined` (scenario S3 shape). -/
def seqUndefSample : SeqConfig :=
  { src := fun i => if i < 3 then .ok (.num 0) false else .ok .undef false,
    dst := none, limit := 0, track := false, clock := fun _ => 0 }

/-- Sequence source that throws immediately. -/
def seqSrcThrowSample : SeqConfig :=
  { src := fun _ => .err (.str "e") false, dst := none, limit := 0,
    track := false, clock := fun _ => 0 }

/-- Page whose first page's batch rejects (reason code 0). -/
def pageBatchRejSample : PageConfig :=
  { src := fun _ => .ok (.arr []) false, batch := fun _ _ => .err (.str "b"),
    dst := none, limit := 0, clock := fun _ => 0 }

/-- Page source resolving `42` at index 0 (scenario S5). -/
def pageNonArraySample : PageConfig :=
  { src := fun _ => .ok (.num 42) false, batch := fun _ e => .ok e,
    dst := none, limit := 0, clock := fun _ => 0 }

/-- Tracked sequence resolving `0, 0, undefined` (scenario S4 shape). -/
def seqTrackSample : SeqConfig :=
  { src := fun i => if i < 2 then .ok (.num 0) false else .ok .undef false,
    dst := none, limit := 0, track := true, clock := fun _ => 0 }

/-- Sequence resolving `7` then failing with a thrown source error. -/
def seqFailAt1Sample : SeqConfig :=
  { src := fun i => if i = 0 then .ok (.num 7) false else .err (.str "x") false,
    dst := none, limit := 0, track := false, clock := fun _ => 0 }

/-- Page whose sink throws on the first batched page. -/
def pageSinkThrowSample : PageConfig :=
  { src := fun _ => .ok (.arr [.num 1]) false, batch := fun _ e => .ok e,
    dst := some (fun _ => .throws (.str "d")), limit := 0, clock := fun _ => 0 }

/-- A page whose source throws immediately (resolver reports `isRej = false`). -/
def pageThrownCfg : PageConfig :=
  { src := fun _ => .err (.str "boom") false, batch := fun _ elems => .ok elems,
    dst := none, limit := 0, clock := fun _ => 0 }

/-! ## Generic facts about the pull loop -/

theorem JSVal.isUndef_iff {v : JSVal} : v.isUndef = true ↔ v = .undef := by
  cases v <;> simp [JSVal.isUndef]

/-- Any settled run ends with a `done` step taken from a state reachable
through `more` steps; `I` is any invariant preserved by `more` steps.  The
final iteration index `iF` satisfies `iF + 1 = idx + recs.length` (so in
particular the trace is nonempty). -/
theorem runLoop_done {sig out : Type} (step : Nat → sig → StepRes sig out)
    (I : Nat → sig → Prop)
    (hpres : ∀ i s st1 r, I i s → step i s = .more st1 r → I (i + 1) st1) :
    ∀ fuel idx st o st' recs, I idx st →
      runLoop step fuel idx st = some (o, st', recs) →
      ∃ iF sF sF1 recF, I iF sF ∧ step iF sF = .done o sF1 recF ∧
        iF + 1 = idx + recs.length := by
  intro fuel
  induction fuel with
  | zero => intro idx st o st' recs _ h; simp [runLoop] at h
  | succ n ih =>
    intro idx st o st' recs hI h
    rw [runLoop] at h
    cases hstep : step idx st with
    | done o1 st1 rec =>
      rw [hstep] at h
      simp only [Option.some.injEq, Prod.mk.injEq] at h
      obtain ⟨ho, _, hrecs⟩ := h
      subst ho; subst hrecs
      exact ⟨idx, st, st1, rec, hI, hstep, by simp⟩
    | more st1 rec =>
      rw [hstep] at h
      dsimp only at h
      cases hrest : runLoop step n (idx + 1) st1 with
      | none => rw [hrest] at h; simp at h
      | some trip =>
        obtain ⟨o2, st2, recs2⟩ := trip
        rw [hrest] at h
        simp only [Option.some.injEq, Prod.mk.injEq] at h
        obtain ⟨ho, hst, hrecs⟩ := h
        subst hrecs
        obtain ⟨iF, sF, sF1, recF, hIF, hstepF, hlen⟩ :=
          ih (idx + 1) st1 o2 st2 recs2 (hpres _ _ _ _ hI hstep) hrest
        subst ho
        exact ⟨iF, sF, sF1, recF, hIF, hstepF, by simp only [List.length_cons]; omega⟩

/-- Every trace record of a settled run is the record of the step at the
corresponding iteration index, taken from a state satisfying the invariant:
`P` holds of record `j` of the trace at iteration `idx + j`. -/
theorem runLoop_recs {sig out : Type} (step : Nat → sig → StepRes sig out)
    (I : Nat → sig → Prop) (P : Nat → IterRec → Prop)
    (hpres : ∀ i s st1 r, I i s → step i s = .more st1 r → I (i + 1) st1)
    (hrec : ∀ i s, I i s → P i (step i s).record) :
    ∀ fuel idx st o st' recs, I idx st →
      runLoop step fuel idx st = some (o, st', recs) →
      ∀ j rc, recs[j]? = some rc → P (idx + j) rc := by
  intro fuel
  induction fuel with
  | zero => intro idx st o st' recs _ h; simp [runLoop] at h
  | succ n ih =>
    intro idx st o st' recs hI h j rc hj
    rw [runLoop] at h
    cases hstep : step idx st with
    | done o1 st1 rec =>
      rw [hstep] at h
      simp only [Option.some.injEq, Prod.mk.injEq] at h
      obtain ⟨_, _, hrecs⟩ := h
      subst hrecs
      cases j with
      | zero =>
        simp only [List.getElem?_cons_zero, Option.some.injEq] at hj
        subst hj
        have := hrec idx st hI
        rwa [hstep] at this
      | succ j1 => simp at hj
    | more st1 rec =>
      rw [hstep] at h
      dsimp only at h
      cases hrest : runLoop step n (idx + 1) st1 with
      | none => rw [hrest] at h; simp at h
      | some trip =>
        obtain ⟨o2, st2, recs2⟩ := trip
        rw [hrest] at h
        simp only [Option.some.injEq, Prod.mk.injEq] at h
        obtain ⟨_, _, hrecs⟩ := h
        subst hrecs
        cases j with
        | zero =>
          simp only [List.getElem?_cons_zero, Option.some.injEq] at hj
          subst hj
          have := hrec idx st hI
          rwa [hstep] at this
        | succ j1 =>
          simp only [List.getElem?_cons_succ] at hj
          have h2 := ih (idx + 1) st1 o2 st2 recs2 (hpres _ _ _ _ hI hstep) hrest j1 rc hj
          rwa [show idx + 1 + j1 = idx + (j1 + 1) by omega] at h2

/-! ## Characterization of one sequence iteration -/

/-- Every iteration calls the source exactly once, passing the current
index, the previously resolved `data`, and the delay (absent at index 0). -/
theorem seqStep_record_call (cfg : SeqConfig) (start : Int) (idx : Nat) (st : SeqState) :
    (seqStep cfg start idx st).record.call =
      ⟨idx, st.data, if idx = 0 then none else some (cfg.clock st.t - st.srcTime)⟩ := by
  unfold seqStep seqNext seqSuccess
  repeat' split
  all_goals rfl

/-- A settling iteration records no scheduling decision. -/
theorem seqStep_done_sched (cfg : SeqConfig) (start : Int) (idx : Nat) (st : SeqState)
    (o : SeqOutcome) (st1 : SeqState) (rec : IterRec)
    (h : seqStep cfg start idx st = .done o st1 rec) : rec.sched = none := by
  unfold seqStep seqNext seqSuccess at h
  repeat' split at h
  all_goals cases h
  all_goals rfl

/-- A continuing iteration: the source resolved a non-`undefined` value, the
limit was not reached, the value became the new `data` (and was pushed onto
the tracked result when tracking), and a scheduling decision was recorded,
`direct` iff the sink returned a promise or the resolver reported
`delayed`. -/
theorem seqStep_more (cfg : SeqConfig) (start : Int) (idx : Nat) (st : SeqState)
    (st1 : SeqState) (rec : IterRec)
    (h : seqStep cfg start idx st = .more st1 rec) :
    cfg.limit ≠ idx + 1 ∧
    (cfg.src idx).isOk = true ∧
    (cfg.src idx).okValue.isUndef = false ∧
    st1.data = (cfg.src idx).okValue ∧
    st1.result = (if cfg.track then st.result ++ [(cfg.src idx).okValue] else st.result) ∧
    ∃ sr, rec.sched = some sr ∧ sr.delayed = (cfg.src idx).okDelayed ∧
      sr.sched = schedOf (sr.asyncDest || sr.delayed) ∧
      (sr.asyncDest = true → ∃ dd, cfg.dst = some dd ∧ dd idx = .retPromise none) := by
  unfold seqStep seqNext seqSuccess at h
  repeat' split at h
  all_goals cases h
  all_goals simp_all [schedOf, Res.isOk, Res.okValue, Res.okDelayed]

theorem JSVal.isUndef_eq_false {v : JSVal} : v.isUndef = false ↔ v ≠ .undef := by
  cases v <;> simp [JSVal.isUndef]

/-- A rejecting iteration of the sequence driver, characterized at each of
the `fail` call sites: the error's `index` is the current iteration,
exactly one of `source`/`dest` is set, a source failure sets `source` to
the previous `data` with code 0 (deferred rejection) or 1 (thrown), and a
sink failure sets `dest` to the resolved value with code 3 (thrown) or 2
(returned rejection). -/
theorem seqStep_fail (cfg : SeqConfig) (start : Int) (idx : Nat) (st : SeqState)
    (e : DriverError) (st1 : SeqState) (rec : IterRec)
    (h : seqStep cfg start idx st = .done (.fail e) st1 rec) :
    e.index = idx ∧
    e.source.isSome = !e.dest.isSome ∧
    (∀ r b, cfg.src idx = .err r b →
      e.code = (if b then 0 else 1) ∧ e.error = r ∧ e.dest = none ∧
      e.source = some st.data) ∧
    (∀ v d, cfg.src idx = .ok v d → v.isUndef = false →
      ∃ dd, cfg.dst = some dd ∧ e.source = none ∧ e.dest = some v ∧
        ((∃ er, dd idx = .throws er ∧ e.code = 3 ∧ e.error = er) ∨
         (∃ er, dd idx = .retPromise (some er) ∧ e.code = 2 ∧ e.error = er))) ∧
    (∀ d, cfg.src idx ≠ .ok .undef d) := by
  unfold seqStep seqNext seqSuccess at h
  repeat' split at h
  all_goals cases h
  all_goals simp_all [JSVal.isUndef_eq_false, JSVal.isUndef_iff]

/-- A successfully settling iteration of the sequence driver: either the
source resolved `undefined` (and the run resolves with the result collected
so far and total `idx`), or the limit was reached by `++idx` (and the run
additionally counts this iteration's value). -/
theorem seqStep_ok (cfg : SeqConfig) (start : Int) (idx : Nat) (st : SeqState)
    (v : SeqValue) (st1 : SeqState) (rec : IterRec)
    (h : seqStep cfg start idx st = .done (.ok v) st1 rec) :
    ((cfg.src idx).okValue = .undef ∧ (cfg.src idx).isOk = true ∧
       (cfg.track = true → ∃ dur, v = .tracked st.result (extend dur)) ∧
       (cfg.track = false → ∃ dur, v = .totals idx dur)) ∨
    (cfg.limit = idx + 1 ∧ (cfg.src idx).isOk = true ∧
       (cfg.src idx).okValue.isUndef = false ∧
       (cfg.track = true →
         ∃ dur, v = .tracked (st.result ++ [(cfg.src idx).okValue]) (extend dur)) ∧
       (cfg.track = false → ∃ dur, v = .totals (idx + 1) dur)) := by
  unfold seqStep seqNext seqSuccess at h
  repeat' split at h
  all_goals cases h
  all_goals simp_all [Res.okValue, Res.isOk, JSVal.isUndef_iff, JSVal.isUndef_eq_false, extend]

/-! ## Run-level facts about the sequence driver -/

/-- Ordering law for sequence: the `j`-th source call of a settled run
carries index `j` — indices are `0, 1, 2, …` with no gaps. -/
theorem seq_calls_indices (cfg : SeqConfig) (fuel : Nat) (o : SeqOutcome)
    (st' : SeqState) (recs : List IterRec)
    (h : seqRun cfg fuel = some (o, st', recs)) :
    ∀ (j : Nat) (rc : IterRec), recs[j]? = some rc → rc.call.index = j := by
  unfold seqRun seqLoop at h
  intro j rc hj
  have := runLoop_recs (seqStep cfg (cfg.clock 0)) (fun _ _ => True)
    (fun i r => r.call.index = i) (fun _ _ _ _ _ _ => trivial)
    (fun i s _ => by
      show (seqStep cfg (cfg.clock 0) i s).record.call.index = i
      rw [seqStep_record_call]) fuel 0 seqInit o st' recs trivial h j rc hj
  simpa using this

/-- Limit law for sequence (upper bound): with a positive limit, a settled
run makes at most `limit` source calls. -/
theorem seq_limit_bound (cfg : SeqConfig) (fuel : Nat) (o : SeqOutcome)
    (st' : SeqState) (recs : List IterRec)
    (hpos : 0 < cfg.limit)
    (h : seqRun cfg fuel = some (o, st', recs)) :
    recs.length ≤ cfg.limit := by
  unfold seqRun seqLoop at h
  obtain ⟨iF, sF, sF1, recF, hIF, _, hlen⟩ :=
    runLoop_done (seqStep cfg (cfg.clock 0)) (fun i _ => i < cfg.limit)
      (fun i s st1 r hI hm => by
        have hch := seqStep_more cfg (cfg.clock 0) i s st1 r hm
        omega)
      fuel 0 seqInit o st' recs hpos h
  omega

/-- Limit law for sequence (success): a successful run either made exactly
`limit` calls or was terminated by the source resolving `undefined` at its
last call. -/
theorem seq_success_term (cfg : SeqConfig) (fuel : Nat) (v : SeqValue)
    (st' : SeqState) (recs : List IterRec)
    (h : seqRun cfg fuel = some (.ok v, st', recs)) :
    recs.length = cfg.limit ∨ (cfg.src (recs.length - 1)).okValue = .undef := by
  unfold seqRun seqLoop at h
  obtain ⟨iF, sF, sF1, recF, _, hstep, hlen⟩ :=
    runLoop_done (seqStep cfg (cfg.clock 0)) (fun _ _ => True)
      (fun _ _ _ _ _ _ => trivial) fuel 0 seqInit (.ok v) st' recs trivial h
  rcases seqStep_ok cfg (cfg.clock 0) iF sF v sF1 recF hstep with
    ⟨hu, _, _, _⟩ | ⟨hl, _, _, _, _⟩
  · right
    rwa [show recs.length - 1 = iF by omega]
  · left
    omega

theorem seqDataInv_pres (cfg : SeqConfig) (start : Int) :
    ∀ i s st1 r, seqDataInv cfg i s → seqStep cfg start i s = .more st1 r →
      seqDataInv cfg (i + 1) st1 := by
  intro i s st1 r _ hm
  obtain ⟨_, _, _, hdata, _, _⟩ := seqStep_more cfg start i s st1 r hm
  exact ⟨fun h0 => by omega, fun _ => by simpa using hdata⟩

/-- Failure characterization of a sequence run: the error's `index` is the
last iteration, exactly one of `source`/`dest` is set; a source failure
carries code 0 (deferred rejection) or 1 (thrown) and `source` is the data
passed to the failing source call — `undefined` at index 0, else the value
resolved at the previous iteration; a sink failure carries code 3 (thrown)
or 2 (returned rejection) and `dest` is the value passed to the failing
sink call. -/
theorem seq_fail_char (cfg : SeqConfig) (fuel : Nat) (e : DriverError)
    (st' : SeqState) (recs : List IterRec)
    (h : seqRun cfg fuel = some (.fail e, st', recs)) :
    e.index + 1 = recs.length ∧
    e.source.isSome = !e.dest.isSome ∧
    (∀ r b, cfg.src e.index = .err r b →
      e.code = (if b then 0 else 1) ∧ e.error = r ∧ e.dest = none ∧
      e.source = some (if e.index = 0 then JSVal.undef
                       else (cfg.src (e.index - 1)).okValue)) ∧
    (∀ v d, cfg.src e.index = .ok v d → v.isUndef = false →
      ∃ dd, cfg.dst = some dd ∧ e.source = none ∧ e.dest = some v ∧
        ((∃ er, dd e.index = .throws er ∧ e.code = 3 ∧ e.error = er) ∨
         (∃ er, dd e.index = .retPromise (some er) ∧ e.code = 2 ∧ e.error = er))) := by
  unfold seqRun seqLoop at h
  obtain ⟨iF, sF, sF1, recF, hIF, hstep, hlen⟩ :=
    runLoop_done (seqStep cfg (cfg.clock 0)) (seqDataInv cfg)
      (seqDataInv_pres cfg (cfg.clock 0)) fuel 0 seqInit (.fail e) st' recs
      ⟨fun _ => rfl, fun hc => by omega⟩ h
  obtain ⟨hidx, hxor, herr, hok, _⟩ := seqStep_fail cfg (cfg.clock 0) iF sF e sF1 recF hstep
  subst hidx
  refine ⟨by omega, hxor, ?_, hok⟩
  intro r b hsrc
  obtain ⟨hc, he, hd, hs⟩ := herr r b hsrc
  refine ⟨hc, he, hd, ?_⟩
  rw [hs]
  by_cases h0 : e.index = 0
  · rw [if_pos h0, hIF.1 h0]
  · rw [if_neg h0, hIF.2 (by omega)]

/-- Stack-guard law of the sequence driver, per scheduling record: the next
iteration is chained directly iff the sink returned a promise or the
resolver reported `delayed`; the record's `delayed` flag is what the
resolver reported for source call `j`, and `asyncDest` only holds when a
sink returned a (resolving) promise at `j`. -/
theorem seq_sched_law (cfg : SeqConfig) (fuel : Nat) (o : SeqOutcome)
    (st' : SeqState) (recs : List IterRec)
    (h : seqRun cfg fuel = some (o, st', recs)) :
    ∀ (j : Nat) (rc : IterRec), recs[j]? = some rc → ∀ sr, rc.sched = some sr →
      sr.sched = schedOf (sr.asyncDest || sr.delayed) ∧
      sr.delayed = (cfg.src j).okDelayed ∧
      (sr.asyncDest = true → ∃ dd, cfg.dst = some dd ∧ dd j = .retPromise none) := by
  unfold seqRun seqLoop at h
  intro j rc hj
  have := runLoop_recs (seqStep cfg (cfg.clock 0)) (fun _ _ => True)
    (fun i r => ∀ sr, r.sched = some sr →
      sr.sched = schedOf (sr.asyncDest || sr.delayed) ∧
      sr.delayed = (cfg.src i).okDelayed ∧
      (sr.asyncDest = true → ∃ dd, cfg.dst = some dd ∧ dd i = .retPromise none))
    (fun _ _ _ _ _ _ => trivial)
    (fun i s _ => by
      intro sr hsr
      cases hstep : seqStep cfg (cfg.clock 0) i s with
      | done o1 st1 rec =>
        rw [hstep] at hsr
        have hnone := seqStep_done_sched cfg (cfg.clock 0) i s o1 st1 rec hstep
        simp only [StepRes.record] at hsr
        rw [hnone] at hsr
        cases hsr
      | more st1 rec =>
        rw [hstep] at hsr
        simp only [StepRes.record] at hsr
        obtain ⟨_, _, _, _, _, sr', hsr', hdel, hsched, hasync⟩ :=
          seqStep_more cfg (cfg.clock 0) i s st1 rec hstep
        rw [hsr'] at hsr
        cases hsr
        exact ⟨hsched, hdel, hasync⟩)
    fuel 0 seqInit o st' recs trivial h j rc hj
  simpa using this

/-- Tracked-result characterization: a successful run with `track = true`
resolves with exactly the values resolved by the source, in iteration
order, and the `duration` property built by `extend`. -/
theorem seq_tracked (cfg : SeqConfig) (fuel : Nat) (v : SeqValue)
    (st' : SeqState) (recs : List IterRec)
    (htr : cfg.track = true)
    (h : seqRun cfg fuel = some (.ok v, st', recs)) :
    ∃ dur m, v = .tracked ((List.range m).map fun j => (cfg.src j).okValue) (extend dur) ∧
      ∀ j, j < m → (cfg.src j).isOk = true ∧ (cfg.src j).okValue.isUndef = false := by
  unfold seqRun seqLoop at h
  obtain ⟨iF, sF, sF1, recF, hIF, hstep, hlen⟩ :=
    runLoop_done (seqStep cfg (cfg.clock 0))
      (fun i s => s.result = (List.range i).map (fun j => (cfg.src j).okValue) ∧
        ∀ j, j < i → (cfg.src j).isOk = true ∧ (cfg.src j).okValue.isUndef = false)
      (fun i s st1 r hI hm => by
        obtain ⟨_, hisok, hnund, _, hres, _⟩ := seqStep_more cfg (cfg.clock 0) i s st1 r hm
        rw [htr] at hres
        constructor
        · rw [hres, hI.1, List.range_succ, List.map_append]
          simp
        · intro j hji
          rcases Nat.lt_succ_iff_lt_or_eq.mp hji with hlt | heq
          · exact hI.2 j hlt
          · subst heq; exact ⟨hisok, hnund⟩)
      fuel 0 seqInit (.ok v) st' recs (by exact ⟨rfl, by omega⟩) h
  rcases seqStep_ok cfg (cfg.clock 0) iF sF v sF1 recF hstep with
    ⟨hu, hisok, htrk, _⟩ | ⟨_, hisok, hnund, htrk, _⟩
  · obtain ⟨dur, hv⟩ := htrk htr
    refine ⟨dur, iF, ?_, hIF.2⟩
    rw [hv, hIF.1]
  · obtain ⟨dur, hv⟩ := htrk htr
    refine ⟨dur, iF + 1, ?_, ?_⟩
    · rw [hv, hIF.1, List.range_succ, List.map_append]
      simp
    · intro j hji
      rcases Nat.lt_succ_iff_lt_or_eq.mp hji with hlt | heq
      · exact hIF.2 j hlt
      · subst heq; exact ⟨hisok, hnund⟩

/-- An iteration whose source resolves a non-`undefined` value, whose sink
(if any) neither throws nor returns a rejected promise, and which does not
hit the limit, continues the loop. -/
theorem seqStep_forward_more (cfg : SeqConfig) (start : Int) (idx : Nat) (st : SeqState)
    (hok : (cfg.src idx).isOk = true) (hnund : (cfg.src idx).okValue.isUndef = false)
    (hlim : cfg.limit ≠ idx + 1)
    (hdst : ∀ dd, cfg.dst = some dd → dd idx = .retPlain ∨ dd idx = .retPromise none) :
    ∃ st1 rec, seqStep cfg start idx st = .more st1 rec := by
  cases hstep : seqStep cfg start idx st with
  | more stA recA => exact ⟨stA, recA, rfl⟩
  | done o1 stA recA =>
    exfalso
    rcases hsrc : cfg.src idx with ⟨v, d⟩ | ⟨r, b⟩
    · have hv : v.isUndef = false := by
        rw [hsrc] at hnund; simpa [Res.okValue] using hnund
      unfold seqStep seqNext at hstep
      rw [hsrc] at hstep
      cases hdd : cfg.dst with
      | none =>
        rw [hdd] at hstep
        simp [hv, hlim] at hstep
      | some dd =>
        rw [hdd] at hstep
        rcases hdst dd hdd with hp | hp <;> simp [hv, hlim, hp] at hstep
    · rw [hsrc] at hok
      simp [Res.isOk] at hok

/-- Forward execution of the sequence loop with `track = false`: if the
source resolves non-`undefined` values at the next `n` iterations and
`undefined` after them, the sink never fails there and the limit is out of
reach, the loop resolves with `{total: idx + n, duration}` where the
duration is the difference of two clock samples. -/
theorem seqLoop_forward (cfg : SeqConfig) (start : Int) (htrack : cfg.track = false) :
    ∀ (n idx : Nat) (st : SeqState) (fuel : Nat),
      (∀ j, j < n → (cfg.src (idx + j)).isOk = true ∧
        (cfg.src (idx + j)).okValue.isUndef = false) →
      (∃ d, cfg.src (idx + n) = .ok .undef d) →
      (∀ j, j < n → cfg.limit ≠ idx + j + 1) →
      (∀ j, j < n → ∀ dd, cfg.dst = some dd →
        dd (idx + j) = .retPlain ∨ dd (idx + j) = .retPromise none) →
      n + 1 ≤ fuel →
      ∃ st' recs τ, runLoop (seqStep cfg start) fuel idx st =
        some (.ok (.totals (idx + n) (cfg.clock τ - start)), st', recs) := by
  intro n
  induction n with
  | zero =>
    intro idx st fuel _ hund _ _ hfuel
    obtain ⟨f, rfl⟩ : ∃ f, fuel = f + 1 := ⟨fuel - 1, by omega⟩
    obtain ⟨d, hsrc⟩ := hund
    simp only [Nat.add_zero] at hsrc ⊢
    rw [runLoop]
    unfold seqStep seqSuccess
    rw [hsrc]
    simp only [JSVal.isUndef, htrack]
    exact ⟨_, _, st.t + 1, rfl⟩
  | succ n ih =>
    intro idx st fuel hok hund hlim hdst hfuel
    obtain ⟨f, rfl⟩ : ∃ f, fuel = f + 1 := ⟨fuel - 1, by omega⟩
    obtain ⟨hok0, hnund0⟩ := hok 0 (by omega)
    simp only [Nat.add_zero] at hok0 hnund0
    obtain ⟨st1, rec, hstep⟩ := seqStep_forward_more cfg start idx st hok0 hnund0
      (by have := hlim 0 (by omega); simpa using this)
      (by have := hdst 0 (by omega); simpa using this)
    obtain ⟨st2', recs', τ, hrest⟩ := ih (idx + 1) st1 f
      (fun j hj => by
        have := hok (j + 1) (by omega)
        rwa [show idx + (j + 1) = idx + 1 + j by omega] at this)
      (by
        obtain ⟨d, hd⟩ := hund
        exact ⟨d, by rwa [show idx + (n + 1) = idx + 1 + n by omega] at hd⟩)
      (fun j hj => by
        have := hlim (j + 1) (by omega)
        intro hcon
        exact this (by omega))
      (fun j hj => by
        have := hdst (j + 1) (by omega)
        rwa [show idx + (j + 1) = idx + 1 + j by omega] at this)
      (by omega)
    rw [runLoop, hstep]
    dsimp only
    rw [show idx + 1 + n = idx + (n + 1) by omega] at hrest
    rw [hrest]
    exact ⟨_, _, τ, rfl⟩

/-! ## Characterization of one page iteration -/

/-- Every page iteration calls the source once, passing the current index,
the previous page's batch outcome (`request`), and the delay. -/
theorem pageStep_record_call (cfg : PageConfig) (start : Int) (idx : Nat) (st : PageState) :
    (pageStep cfg start idx st).record.call =
      ⟨idx, st.request, if idx = 0 then none else some (cfg.clock st.t - st.srcTime)⟩ := by
  unfold pageStep pageNext pageSuccess
  repeat' split
  all_goals rfl

/-- A continuing page iteration: the source resolved an array whose batch
resolved, the limit was not reached, and the batch outcome became the new
`request`. -/
theorem pageStep_more (cfg : PageConfig) (start : Int) (idx : Nat) (st : PageState)
    (st1 : PageState) (rec : IterRec)
    (h : pageStep cfg start idx st = .more st1 rec) :
    cfg.limit ≠ idx + 1 ∧
    (∃ elems d rows, cfg.src idx = .ok (.arr elems) d ∧ cfg.batch idx elems = .ok rows) ∧
    st1.request = pageBatchValue cfg idx := by
  unfold pageStep pageNext pageSuccess at h
  repeat' split at h
  all_goals cases h
  all_goals simp_all [pageBatchValue]

/-- A rejecting page iteration, characterized at each `fail` call site. -/
theorem pageStep_fail (cfg : PageConfig) (start : Int) (idx : Nat) (st : PageState)
    (e : DriverError) (st1 : PageState) (rec : IterRec)
    (h : pageStep cfg start idx st = .done (.fail e) st1 rec) :
    e.index = idx ∧
    (if e.code = 0 then e.source = none ∧ e.dest = none
     else e.source.isSome = !e.dest.isSome) ∧
    (∀ r b, cfg.src idx = .err r b →
      e.code = (if b then 1 else 2) ∧ e.error = r ∧ e.dest = none ∧
      e.source = some st.request) ∧
    (∀ v d, cfg.src idx = .ok v d → v.isUndef = false → (∀ xs, v ≠ .arr xs) →
      e.code = 5 ∧ e.error = .errObj "Unexpected data returned from the source." ∧
      e.dest = none ∧ e.source = some st.request) ∧
    (∀ elems d er, cfg.src idx = .ok (.arr elems) d → cfg.batch idx elems = .err er →
      e.code = 0 ∧ e.error = er ∧ e.source = none ∧ e.dest = none) ∧
    (∀ elems d rows, cfg.src idx = .ok (.arr elems) d → cfg.batch idx elems = .ok rows →
      ∃ dd, cfg.dst = some dd ∧ e.source = none ∧ e.dest = some (.arr rows) ∧
        ((∃ er, dd idx = .throws er ∧ e.code = 4 ∧ e.error = er) ∨
         (∃ er, dd idx = .retPromise (some er) ∧ e.code = 3 ∧ e.error = er))) := by
  unfold pageStep pageNext pageSuccess at h
  repeat' split at h
  all_goals cases h
  all_goals (try simp_all [JSVal.isUndef_eq_false, JSVal.isUndef_iff])
  all_goals aesop

/-- A successfully settling page iteration: the source resolved `undefined`
(pages = current index) or the limit was reached by `++idx`. -/
theorem pageStep_ok (cfg : PageConfig) (start : Int) (idx : Nat) (st : PageState)
    (v : PageSuccess) (st1 : PageState) (rec : IterRec)
    (h : pageStep cfg start idx st = .done (.ok v) st1 rec) :
    ((cfg.src idx).okValue = .undef ∧ (cfg.src idx).isOk = true ∧ v.pages = idx) ∨
    (cfg.limit = idx + 1 ∧ v.pages = idx + 1) := by
  unfold pageStep pageNext pageSuccess at h
  repeat' split at h
  all_goals cases h
  all_goals simp_all [Res.okValue, Res.isOk, JSVal.isUndef_iff]

/-! ## Run-level facts about the page driver -/

/-- Ordering law for page: the `j`-th source call of a settled run carries
index `j`. -/
theorem page_calls_indices (cfg : PageConfig) (fuel : Nat) (o : PageOutcome)
    (st' : PageState) (recs : List IterRec)
    (h : pageRun cfg fuel = some (o, st', recs)) :
    ∀ (j : Nat) (rc : IterRec), recs[j]? = some rc → rc.call.index = j := by
  unfold pageRun pageLoop at h
  intro j rc hj
  have := runLoop_recs (pageStep cfg (cfg.clock 0)) (fun _ _ => True)
    (fun i r => r.call.index = i) (fun _ _ _ _ _ _ => trivial)
    (fun i s _ => by
      show (pageStep cfg (cfg.clock 0) i s).record.call.index = i
      rw [pageStep_record_call]) fuel 0 pageInit o st' recs trivial h j rc hj
  simpa using this

/-- Limit law for page (upper bound): with a positive limit, a settled run
makes at most `limit` source calls. -/
theorem page_limit_bound (cfg : PageConfig) (fuel : Nat) (o : PageOutcome)
    (st' : PageState) (recs : List IterRec)
    (hpos : 0 < cfg.limit)
    (h : pageRun cfg fuel = some (o, st', recs)) :
    recs.length ≤ cfg.limit := by
  unfold pageRun pageLoop at h
  obtain ⟨iF, sF, sF1, recF, hIF, _, hlen⟩ :=
    runLoop_done (pageStep cfg (cfg.clock 0)) (fun i _ => i < cfg.limit)
      (fun i s st1 r hI hm => by
        have hch := pageStep_more cfg (cfg.clock 0) i s st1 r hm
        omega)
      fuel 0 pageInit o st' recs hpos h
  omega

/-- Limit law for page (success): a successful run either made exactly
`limit` source calls or was terminated by the source resolving `undefined`
at its last call. -/
theorem page_success_term (cfg : PageConfig) (fuel : Nat) (v : PageSuccess)
    (st' : PageState) (recs : List IterRec)
    (h : pageRun cfg fuel = some (.ok v, st', recs)) :
    recs.length = cfg.limit ∨ (cfg.src (recs.length - 1)).okValue = .undef := by
  unfold pageRun pageLoop at h
  obtain ⟨iF, sF, sF1, recF, _, hstep, hlen⟩ :=
    runLoop_done (pageStep cfg (cfg.clock 0)) (fun _ _ => True)
      (fun _ _ _ _ _ _ => trivial) fuel 0 pageInit (.ok v) st' recs trivial h
  rcases pageStep_ok cfg (cfg.clock 0) iF sF v sF1 recF hstep with ⟨hu, _, _⟩ | ⟨hl, _⟩
  · right
    rwa [show recs.length - 1 = iF by omega]
  · left
    omega

theorem pageReqInv_pres (cfg : PageConfig) (start : Int) :
    ∀ i s st1 r, pageReqInv cfg i s → pageStep cfg start i s = .more st1 r →
      pageReqInv cfg (i + 1) st1 := by
  intro i s st1 r _ hm
  obtain ⟨_, _, hreq⟩ := pageStep_more cfg start i s st1 r hm
  exact ⟨fun h0 => by omega, fun _ => by simpa using hreq⟩

/-- Failure characterization of a page run: the error's `index` is the last
iteration; code 0 (batch rejection) has neither `source` nor `dest` set and
every other code has exactly one; a source failure (thrown: code 2,
rejected: code 1) and a non-array resolution (code 5) set `source` to the
previous page's batch outcome (`undefined` at index 0); a sink failure
(thrown: code 4, returned rejection: code 3) sets `dest` to the batch
outcome passed to the sink. -/
theorem page_fail_char (cfg : PageConfig) (fuel : Nat) (e : DriverError)
    (st' : PageState) (recs : List IterRec)
    (h : pageRun cfg fuel = some (.fail e, st', recs)) :
    e.index + 1 = recs.length ∧
    (if e.code = 0 then e.source = none ∧ e.dest = none
     else e.source.isSome = !e.dest.isSome) ∧
    (∀ r b, cfg.src e.index = .err r b →
      e.code = (if b then 1 else 2) ∧ e.error = r ∧ e.dest = none ∧
      e.source = some (if e.index = 0 then JSVal.undef
                       else pageBatchValue cfg (e.index - 1))) ∧
    (∀ v d, cfg.src e.index = .ok v d → v.isUndef = false → (∀ xs, v ≠ .arr xs) →
      e.code = 5 ∧ e.error = .errObj "Unexpected data returned from the source." ∧
      e.dest = none ∧
      e.source = some (if e.index = 0 then JSVal.undef
                       else pageBatchValue cfg (e.index - 1))) ∧
    (∀ elems d er, cfg.src e.index = .ok (.arr elems) d →
      cfg.batch e.index elems = .err er →
      e.code = 0 ∧ e.error = er ∧ e.source = none ∧ e.dest = none) ∧
    (∀ elems d rows, cfg.src e.index = .ok (.arr elems) d →
      cfg.batch e.index elems = .ok rows →
      ∃ dd, cfg.dst = some dd ∧ e.source = none ∧ e.dest = some (.arr rows) ∧
        ((∃ er, dd e.index = .throws er ∧ e.code = 4 ∧ e.error = er) ∨
         (∃ er, dd e.index = .retPromise (some er) ∧ e.code = 3 ∧ e.error = er))) := by
  unfold pageRun pageLoop at h
  obtain ⟨iF, sF, sF1, recF, hIF, hstep, hlen⟩ :=
    runLoop_done (pageStep cfg (cfg.clock 0)) (pageReqInv cfg)
      (pageReqInv_pres cfg (cfg.clock 0)) fuel 0 pageInit (.fail e) st' recs
      ⟨fun _ => rfl, fun hc => by omega⟩ h
  obtain ⟨hidx, hshape, herr, hnarr, hbatch, hdest⟩ :=
    pageStep_fail cfg (cfg.clock 0) iF sF e sF1 recF hstep
  subst hidx
  have hreq : sF.request =
      (if e.index = 0 then JSVal.undef else pageBatchValue cfg (e.index - 1)) := by
    by_cases h0 : e.index = 0
    · rw [if_pos h0]; exact hIF.1 h0
    · rw [if_neg h0]; exact hIF.2 (by omega)
  refine ⟨by omega, hshape, ?_, ?_, hbatch, hdest⟩
  · intro r b hsrc
    obtain ⟨hc, he, hd, hs⟩ := herr r b hsrc
    exact ⟨hc, he, hd, by rw [hs, hreq]⟩
  · intro v d hsrc hnund hvarr
    obtain ⟨hc, he, hd, hs⟩ := hnarr v d hsrc hnund hvarr
    exact ⟨hc, he, hd, by rw [hs, hreq]⟩

/-! ## The claims -/

/-- C1: In the sequence combinator, an iteration's successor is scheduled
through the yield-to-scheduler chain (`$p.resolve().then`) exactly when the
resolver reported a synchronous resolution (`delayed = false`) and no
promise-returning sink intervened; when `delayed = true` (or a sink promise
intervened) it chains directly.  Consequently a run whose every source call
resolves synchronously, with no sink, schedules every next iteration
through the microtask chain and never recurses directly. -/
theorem spex_c1_stack_guard :
    (∀ (cfg : SeqConfig) (fuel : Nat) (o : SeqOutcome) (st' : SeqState)
       (recs : List IterRec),
      seqRun cfg fuel = some (o, st', recs) →
      ∀ (j : Nat) (rc : IterRec), recs[j]? = some rc → ∀ sr, rc.sched = some sr →
        (sr.sched = .direct ↔ (sr.asyncDest = true ∨ sr.delayed = true)) ∧
        sr.delayed = (cfg.src j).okDelayed ∧
        (sr.asyncDest = true → ∃ dd, cfg.dst = some dd ∧ dd j = .retPromise none)) ∧
    (∀ (cfg : SeqConfig) (fuel : Nat) (o : SeqOutcome) (st' : SeqState)
       (recs : List IterRec),
      seqRun cfg fuel = some (o, st', recs) →
      cfg.dst = none → (∀ i, (cfg.src i).okDelayed = false) →
      ∀ (j : Nat) (rc : IterRec), recs[j]? = some rc → ∀ sr, rc.sched = some sr →
        sr.sched = .microtask) := by
  constructor
  · intro cfg fuel o st' recs h j rc hj sr hsr
    obtain ⟨hsched, hdel, hasync⟩ := seq_sched_law cfg fuel o st' recs h j rc hj sr hsr
    refine ⟨?_, hdel, hasync⟩
    rw [hsched]
    cases hb : (sr.asyncDest || sr.delayed) <;> simp_all [schedOf]
  · intro cfg fuel o st' recs h hnd hsync j rc hj sr hsr
    obtain ⟨hsched, hdel, hasync⟩ := seq_sched_law cfg fuel o st' recs h j rc hj sr hsr
    have hd : sr.delayed = false := by rw [hdel]; exact hsync j
    have ha : sr.asyncDest = false := by
      cases hA : sr.asyncDest
      · rfl
      · obtain ⟨dd, hdd, _⟩ := hasync hA
        rw [hnd] at hdd
        cases hdd
    rw [hsched, ha, hd]
    rfl

/-- C2 counterexample: the claim maps a thrown source failure to reason
code 1, but a page run whose source throws (resolver reports
`isRej = false`, §4.D) rejects with reason code 2, not 1. -/
theorem spex_c2_counterexample :
    pageFailCode (pageRun pageThrownCfg 1) = some 2 ∧ (2 : Nat) ≠ 1 :=
  ⟨rfl, by decide⟩

/-- C2 (amended): when the page source's failure is a deferred rejection
(`isRej = true`) the PageError carries reason code 1, and when the source
threw (`isRej = false`) it carries reason code 2; in both cases the
error's `source` property is set. -/
theorem spex_c2_source_codes :
    ∀ (cfg : PageConfig) (fuel : Nat) (e : DriverError) (st' : PageState)
      (recs : List IterRec),
      pageRun cfg fuel = some (.fail e, st', recs) →
      ∀ r b, cfg.src e.index = .err r b →
        e.code = (if b then 1 else 2) ∧ e.error = r ∧ e.source.isSome = true := by
  intro cfg fuel e st' recs h r b hsrc
  obtain ⟨_, _, herr, _⟩ := page_fail_char cfg fuel e st' recs h
  obtain ⟨hc, he, _, hs⟩ := herr r b hsrc
  exact ⟨hc, he, by rw [hs]; rfl⟩

/-- C3: for every sequence or page run with a positive limit `L`, the
source is called with strictly increasing indices `0, 1, 2, …` with no
gaps (the `j`-th call carries index `j`), at most `L` times, and on
successful completion exactly `L` times unless the source ended the run
earlier by resolving `undefined` at its last call. -/
theorem spex_c3_limit_and_ordering :
    (∀ (cfg : SeqConfig) (fuel : Nat) (o : SeqOutcome) (st' : SeqState)
       (recs : List IterRec),
      0 < cfg.limit → seqRun cfg fuel = some (o, st', recs) →
      (∀ (j : Nat) (rc : IterRec), recs[j]? = some rc → rc.call.index = j) ∧
      recs.length ≤ cfg.limit ∧
      (∀ v, o = .ok v →
        recs.length = cfg.limit ∨ (cfg.src (recs.length - 1)).okValue = .undef)) ∧
    (∀ (cfg : PageConfig) (fuel : Nat) (o : PageOutcome) (st' : PageState)
       (recs : List IterRec),
      0 < cfg.limit → pageRun cfg fuel = some (o, st', recs) →
      (∀ (j : Nat) (rc : IterRec), recs[j]? = some rc → rc.call.index = j) ∧
      recs.length ≤ cfg.limit ∧
      (∀ v, o = .ok v →
        recs.length = cfg.limit ∨ (cfg.src (recs.length - 1)).okValue = .undef)) := by
  constructor
  · intro cfg fuel o st' recs hpos h
    refine ⟨seq_calls_indices cfg fuel o st' recs h,
            seq_limit_bound cfg fuel o st' recs hpos h, ?_⟩
    intro v ho
    subst ho
    exact seq_success_term cfg fuel v st' recs h
  · intro cfg fuel o st' recs hpos h
    refine ⟨page_calls_indices cfg fuel o st' recs h,
            page_limit_bound cfg fuel o st' recs hpos h, ?_⟩
    intro v ho
    subst ho
    exact page_success_term cfg fuel v st' recs h

/-- C4: a sequence run with `track = false` whose source resolves
non-`undefined` values at iterations `0..k-1` and `undefined` at `k`, with
no source or sink failure, the limit out of reach and enough fuel, resolves
with `{total: k, duration}` where the duration is non-negative (for a
monotone clock). -/
theorem spex_c4_undefined_termination :
    ∀ (cfg : SeqConfig) (fuel k : Nat),
      cfg.track = false → Monotone cfg.clock →
      (∀ j, j < k → (cfg.src j).isOk = true ∧ (cfg.src j).okValue.isUndef = false) →
      (∃ d, cfg.src k = .ok .undef d) →
      (∀ j, j < k → destBenign cfg j) →
      (cfg.limit = 0 ∨ k < cfg.limit) →
      k + 1 ≤ fuel →
      seqOkTotalOf (seqRun cfg fuel) = some k ∧
      seqDurNonneg (seqRun cfg fuel) = true := by
  intro cfg fuel k htr hmono hok hund hdst hlim hfuel
  obtain ⟨st', recs, τ, hrun⟩ := seqLoop_forward cfg (cfg.clock 0) htr k 0 seqInit fuel
    (fun j hj => by simpa using hok j hj)
    (by simpa using hund)
    (fun j hj => by rcases hlim with h0 | hk <;> omega)
    (fun j hj => by simpa [destBenign] using hdst j hj)
    hfuel
  unfold seqRun seqLoop
  rw [hrun]
  simp only [Nat.zero_add] at hrun ⊢
  refine ⟨rfl, ?_⟩
  simp only [seqDurNonneg, decide_eq_true_eq]
  exact sub_nonneg.mpr (hmono (Nat.zero_le τ))

/-- C5: every SequenceError has exactly one of `source`/`dest` populated,
and every PageError likewise except reason code 0 (batch rejection on a
page), which has neither. -/
theorem spex_c5_error_shape :
    (∀ (cfg : SeqConfig) (fuel : Nat) (e : DriverError) (st' : SeqState)
       (recs : List IterRec),
      seqRun cfg fuel = some (.fail e, st', recs) →
      e.source.isSome = !e.dest.isSome) ∧
    (∀ (cfg : PageConfig) (fuel : Nat) (e : DriverError) (st' : PageState)
       (recs : List IterRec),
      pageRun cfg fuel = some (.fail e, st', recs) →
      (if e.code = 0 then e.source = none ∧ e.dest = none
       else e.source.isSome = !e.dest.isSome)) := by
  constructor
  · intro cfg fuel e st' recs h
    exact (seq_fail_char cfg fuel e st' recs h).2.1
  · intro cfg fuel e st' recs h
    exact (page_fail_char cfg fuel e st' recs h).2.1

/-- C6: when the page source resolves a value that is neither `undefined`
nor an array, the run rejects with reason code 5, the fixed error message,
and `source` set to the previous page's batch outcome; at index 0 the
rejection has `source = undefined` and `index = 0`. -/
theorem spex_c6_non_array :
    (∀ (cfg : PageConfig) (fuel : Nat) (e : DriverError) (st' : PageState)
       (recs : List IterRec),
      pageRun cfg fuel = some (.fail e, st', recs) →
      ∀ v d, cfg.src e.index = .ok v d → v.isUndef = false → (∀ xs, v ≠ .arr xs) →
        e.code = 5 ∧
        e.error = .errObj "Unexpected data returned from the source." ∧
        e.source = some (if e.index = 0 then JSVal.undef
                         else pageBatchValue cfg (e.index - 1))) ∧
    (∀ (cfg : PageConfig) (fuel : Nat), 0 < fuel →
      ∀ v d, cfg.src 0 = .ok v d → v.isUndef = false → (∀ xs, v ≠ .arr xs) →
        pageFailData (pageRun cfg fuel) =
          some (5, 0, .errObj "Unexpected data returned from the source.",
                some .undef, none)) := by
  constructor
  · intro cfg fuel e st' recs h v d hsrc hnund hnarr
    obtain ⟨_, _, _, hna, _⟩ := page_fail_char cfg fuel e st' recs h
    obtain ⟨hc, he, _, hs⟩ := hna v d hsrc hnund hnarr
    exact ⟨hc, he, hs⟩
  · intro cfg fuel hf v d hsrc hnund hnarr
    obtain ⟨f, rfl⟩ : ∃ f, fuel = f + 1 := ⟨fuel - 1, by omega⟩
    unfold pageRun pageLoop
    rw [runLoop]
    unfold pageStep
    rw [hsrc]
    rcases v with _ | _ | b | n | s | xs | m | i
    · simp [JSVal.isUndef] at hnund
    · rfl
    · rfl
    · rfl
    · rfl
    · exact absurd rfl (hnarr xs)
    · rfl
    · rfl

/-- C7: a successful sequence run with `track = true` resolves with the
array of all resolved values in iteration order, carrying a `duration`
property built by `extend`, which is non-enumerable, non-writable and
non-configurable. -/
theorem spex_c7_track_result :
    ∀ (cfg : SeqConfig) (fuel : Nat) (v : SeqValue) (st' : SeqState)
      (recs : List IterRec),
      cfg.track = true → seqRun cfg fuel = some (.ok v, st', recs) →
      ∃ dur m,
        v = .tracked ((List.range m).map fun j => (cfg.src j).okValue) (extend dur) ∧
        (∀ j, j < m → (cfg.src j).isOk = true ∧ (cfg.src j).okValue.isUndef = false) ∧
        (extend dur).enumerable = false ∧ (extend dur).writable = false ∧
        (extend dur).configurable = false := by
  intro cfg fuel v st' recs htr h
  obtain ⟨dur, m, hv, hall⟩ := seq_tracked cfg fuel v st' recs htr h
  exact ⟨dur, m, hv, hall, rfl, rfl, rfl⟩

/-- C8: a second argument that is a non-null, non-callable object is
interpreted as an options object — the run is exactly the positional run
on its `dest`, `limit` (and for sequence `track`) fields; a callable
second argument is used as the positional sink. -/
theorem spex_c8_options_object :
    (∀ (src : Nat → Res) (d : Option (Nat → DestBehavior)) (l : Option ℚ) (tr : Bool)
       (limit : Option ℚ) (track : Bool) (clock : Nat → Int) (fuel : Nat),
      sequenceExport src (.options d l tr) limit track clock fuel =
        sequence src d l tr clock fuel) ∧
    (∀ (src : Nat → Res) (batch : Nat → List JSVal → BatchRes)
       (d : Option (Nat → DestBehavior)) (l : Option ℚ) (tr : Bool)
       (limit : Option ℚ) (clock : Nat → Int) (fuel : Nat),
      pageExport src batch (.options d l tr) limit clock fuel =
        page src batch d l clock fuel) ∧
    (∀ (src : Nat → Res) (f : Nat → DestBehavior) (limit : Option ℚ) (track : Bool)
       (clock : Nat → Int) (fuel : Nat),
      sequenceExport src (.fn f) limit track clock fuel =
        sequence src (some f) limit track clock fuel) ∧
    (∀ (src : Nat → Res) (batch : Nat → List JSVal → BatchRes) (f : Nat → DestBehavior)
       (limit : Option ℚ) (clock : Nat → Int) (fuel : Nat),
      pageExport src batch (.fn f) limit clock fuel =
        page src batch (some f) limit clock fuel) :=
  ⟨fun _ _ _ _ _ _ _ _ => rfl, fun _ _ _ _ _ _ _ _ => rfl,
   fun _ _ _ _ _ _ => rfl, fun _ _ _ _ _ _ => rfl⟩

/-- C9: a sequence source failure at iteration `i` sets `source` to the
data passed to that failing source call — the value resolved at `i - 1`,
`undefined` when `i = 0`; a page source failure sets `source` to the
previous page's batch outcome (`undefined` when `i = 0`); a sink failure
sets `dest` to the data passed to the failing sink call — the value
resolved at `i` for sequence, the page's batch outcome for page. -/
theorem spex_c9_error_payload :
    (∀ (cfg : SeqConfig) (fuel : Nat) (e : DriverError) (st' : SeqState)
       (recs : List IterRec),
      seqRun cfg fuel = some (.fail e, st', recs) →
      (∀ r b, cfg.src e.index = .err r b →
        e.source = some (if e.index = 0 then JSVal.undef
                         else (cfg.src (e.index - 1)).okValue)) ∧
      (∀ v d, cfg.src e.index = .ok v d → v.isUndef = false → e.dest = some v)) ∧
    (∀ (cfg : PageConfig) (fuel : Nat) (e : DriverError) (st' : PageState)
       (recs : List IterRec),
      pageRun cfg fuel = some (.fail e, st', recs) →
      (∀ r b, cfg.src e.index = .err r b →
        e.source = some (if e.index = 0 then JSVal.undef
                         else pageBatchValue cfg (e.index - 1))) ∧
      (∀ elems d rows, cfg.src e.index = .ok (.arr elems) d →
        cfg.batch e.index elems = .ok rows → e.dest = some (.arr rows))) := by
  constructor
  · intro cfg fuel e st' recs h
    obtain ⟨_, _, herr, hok⟩ := seq_fail_char cfg fuel e st' recs h
    constructor
    · intro r b hsrc
      exact (herr r b hsrc).2.2.2
    · intro v d hsrc hnund
      obtain ⟨dd, _, _, hd, _⟩ := hok v d hsrc hnund
      exact hd
  · intro cfg fuel e st' recs h
    obtain ⟨_, _, herr, _, _, hdest⟩ := page_fail_char cfg fuel e st' recs h
    constructor
    · intro r b hsrc
      exact (herr r b hsrc).2.2.2
    · intro elems d rows hsrc hbatch
      obtain ⟨dd, _, _, hd, _⟩ := hdest elems d rows hsrc hbatch
      exact hd

/-- C10: both drivers normalize the limit as
`limit = (limit > 0) ? parseInt(limit) : 0`: a positive limit is truncated
toward zero, anything else (including an absent limit) becomes 0
(unlimited); hence a fractional limit strictly between 0 and 1 is
normalized to 0 and a fractional limit above 1 to its integer part. -/
theorem spex_c10_limit_normalization :
    (∀ (src : Nat → Res) (dst : Option (Nat → DestBehavior)) (limit : Option ℚ)
       (track : Bool) (clock : Nat → Int) (fuel : Nat),
      sequence src dst limit track clock fuel =
        seqRun { src := src, dst := dst, limit := normalizeLimit limit,
                 track := track, clock := clock } fuel) ∧
    (∀ (src : Nat → Res) (batch : Nat → List JSVal → BatchRes)
       (dst : Option (Nat → DestBehavior)) (limit : Option ℚ)
       (clock : Nat → Int) (fuel : Nat),
      page src batch dst limit clock fuel =
        pageRun { src := src, batch := batch, dst := dst,
                  limit := normalizeLimit limit, clock := clock } fuel) ∧
    (∀ q : ℚ, 0 < q → normalizeLimit (some q) = (ratTrunc q).toNat) ∧
    (∀ q : ℚ, ¬0 < q → normalizeLimit (some q) = 0) ∧
    normalizeLimit none = 0 ∧
    (∀ q : ℚ, 0 < q → q < 1 → normalizeLimit (some q) = 0) ∧
    (∀ q : ℚ, 1 < q → normalizeLimit (some q) = ⌊q⌋.toNat ∧
      0 < normalizeLimit (some q)) := by
  refine ⟨fun _ _ _ _ _ _ => rfl, fun _ _ _ _ _ _ => rfl, ?_, ?_, rfl, ?_, ?_⟩
  · intro q hq
    simp [normalizeLimit, hq]
  · intro q hq
    simp [normalizeLimit, hq]
  · intro q hq hq1
    have hfloor : ⌊q⌋ = 0 := by
      rw [Int.floor_eq_zero_iff]
      exact ⟨le_of_lt hq, hq1⟩
    simp [normalizeLimit, hq, ratTrunc, le_of_lt hq, hfloor]
  · intro q hq
    have h0 : (0 : ℚ) < q := lt_trans one_pos hq
    have hfloor : 1 ≤ ⌊q⌋ := by
      rw [Int.le_floor]
      exact_mod_cast le_of_lt hq
    constructor
    · simp [normalizeLimit, h0, ratTrunc, le_of_lt h0]
    · simp only [normalizeLimit, if_pos h0, ratTrunc, if_pos (le_of_lt h0)]
      omega

/-- C1 witness: the scheduling record of the first iteration of an
all-synchronous no-sink run is a microtask record. -/
theorem spex_c1_stack_guard_witness :
    (SchedRecord.mk false false Sched.microtask).sched = Sched.microtask :=
  spex_c1_stack_guard.2 seqSyncSample 3 (.ok (.totals 2 0)) ⟨5, 0, 0, .undef, []⟩
    [⟨⟨0, .undef, none⟩, none, some ⟨false, false, .microtask⟩⟩,
     ⟨⟨1, .num 0, some 0⟩, none, some ⟨false, false, .microtask⟩⟩,
     ⟨⟨2, .num 0, some 0⟩, none, none⟩]
    rfl rfl
    (fun i => by
      show (if i < 2 then Res.ok (.num 0) false else Res.ok .undef false).okDelayed = false
      split <;> rfl)
    0 ⟨⟨0, .undef, none⟩, none, some ⟨false, false, .microtask⟩⟩ rfl
    ⟨false, false, .microtask⟩ rfl

/-- C2 witness: a page source rejection with `isRej = true` yields code 1
with `source` set. -/
theorem spex_c2_source_codes_witness :
    (DriverError.mk (.str "r") 0 1 (some .undef) none 0).code =
      (if true then 1 else 2) ∧
    (DriverError.mk (.str "r") 0 1 (some .undef) none 0).error = .str "r" ∧
    (DriverError.mk (.str "r") 0 1 (some .undef) none 0).source.isSome = true :=
  spex_c2_source_codes pageRejSample 1 ⟨.str "r", 0, 1, some .undef, none, 0⟩
    ⟨3, 0, 0, .undef, 0⟩ [⟨⟨0, .undef, none⟩, none, none⟩] rfl (.str "r") true rfl

/-- C3 witness: a limit-2 sequence run calls indices 0, 1 and makes
exactly 2 calls; a limit-2 page run also makes at most 2 calls. -/
theorem spex_c3_limit_and_ordering_witness :
    (IterRec.mk ⟨0, .undef, none⟩ none
      (some ⟨false, false, .microtask⟩)).call.index = 0 ∧
    ([⟨⟨0, .undef, none⟩, none, some ⟨false, false, .microtask⟩⟩,
      ⟨⟨1, .num 0, some 0⟩, none, none⟩] : List IterRec).length ≤
        seqLimitSample.limit ∧
    (([⟨⟨0, .undef, none⟩, none, some ⟨false, false, .microtask⟩⟩,
       ⟨⟨1, .num 0, some 0⟩, none, none⟩] : List IterRec).length =
        seqLimitSample.limit ∨
      (seqLimitSample.src
        (([⟨⟨0, .undef, none⟩, none, some ⟨false, false, .microtask⟩⟩,
           ⟨⟨1, .num 0, some 0⟩, none, none⟩] : List IterRec).length - 1)).okValue =
        .undef) ∧
    ([⟨⟨0, .undef, none⟩, none, none⟩,
      ⟨⟨1, .arr [.num 0], some 0⟩, none, none⟩] : List IterRec).length ≤
        pageLimitSample.limit := by
  have A := spex_c3_limit_and_ordering.1 seqLimitSample 3 (.ok (.totals 2 0))
    ⟨4, 0, 0, .num 0, []⟩
    [⟨⟨0, .undef, none⟩, none, some ⟨false, false, .microtask⟩⟩,
     ⟨⟨1, .num 0, some 0⟩, none, none⟩] (by decide) rfl
  have B := spex_c3_limit_and_ordering.2 pageLimitSample 3 (.ok ⟨2, 2, 0⟩)
    ⟨4, 0, 0, .arr [.num 0], 2⟩
    [⟨⟨0, .undef, none⟩, none, none⟩,
     ⟨⟨1, .arr [.num 0], some 0⟩, none, none⟩] (by decide) rfl
  exact ⟨A.1 0 _ rfl, A.2.1, A.2.2 (.totals 2 0) rfl, B.2.1⟩

/-- C4 witness: the source resolving `0, 0, 0, undefined` makes the run
resolve with `total = 3` and a non-negative duration. -/
theorem spex_c4_undefined_termination_witness :
    seqOkTotalOf (seqRun seqUndefSample 4) = some 3 ∧
    seqDurNonneg (seqRun seqUndefSample 4) = true :=
  spex_c4_undefined_termination seqUndefSample 4 3 rfl monotone_const
    (by decide) ⟨false, rfl⟩ (fun _ _ _ hdd => nomatch hdd) (Or.inl rfl) (by decide)

/-- C5 witness: a sequence source failure has `source` set and `dest`
unset; a page batch rejection (code 0) has neither set. -/
theorem spex_c5_error_shape_witness :
    (DriverError.mk (.str "e") 0 1 (some .undef) none 0).source.isSome =
      !(DriverError.mk (.str "e") 0 1 (some .undef) none 0).dest.isSome ∧
    (if (DriverError.mk (.str "b") 0 0 none none 0).code = 0
     then (DriverError.mk (.str "b") 0 0 none none 0).source = none ∧
          (DriverError.mk (.str "b") 0 0 none none 0).dest = none
     else (DriverError.mk (.str "b") 0 0 none none 0).source.isSome =
          !(DriverError.mk (.str "b") 0 0 none none 0).dest.isSome) :=
  ⟨spex_c5_error_shape.1 seqSrcThrowSample 1 ⟨.str "e", 0, 1, some .undef, none, 0⟩
      ⟨3, 0, 0, .undef, []⟩ [⟨⟨0, .undef, none⟩, none, none⟩] rfl,
   spex_c5_error_shape.2 pageBatchRejSample 1 ⟨.str "b", 0, 0, none, none, 0⟩
      ⟨3, 0, 0, .undef, 0⟩ [⟨⟨0, .undef, none⟩, none, none⟩] rfl⟩

/-- C6 witness (scenario S5): source resolving `42` at index 0 rejects with
code 5, `source = undefined`, `index = 0`. -/
theorem spex_c6_non_array_witness :
    pageFailData (pageRun pageNonArraySample 1) =
      some (5, 0, .errObj "Unexpected data returned from the source.",
            some .undef, none) :=
  spex_c6_non_array.2 pageNonArraySample 1 (by decide) (.num 42) false rfl rfl
    (fun _ h => nomatch h)

/-- C7 witness: the tracked run on `0, 0, undefined` resolves with the
tracked-array form. -/
theorem spex_c7_track_result_witness :
    seqTrackSample.track = true ∧
    SeqValue.isTracked (.tracked [.num 0, .num 0] (extend 0)) = true := by
  obtain ⟨dur, m, hv, -, -, -, -⟩ :=
    spex_c7_track_result seqTrackSample 3 (.tracked [.num 0, .num 0] (extend 0))
      ⟨5, 0, 0, .undef, [.num 0, .num 0]⟩
      [⟨⟨0, .undef, none⟩, none, some ⟨false, false, .microtask⟩⟩,
       ⟨⟨1, .num 0, some 0⟩, none, some ⟨false, false, .microtask⟩⟩,
       ⟨⟨2, .num 0, some 0⟩, none, none⟩] rfl rfl
  exact ⟨rfl, by rw [hv]; rfl⟩

/-- C9 witness: a source failure at iteration 1 carries `source` equal to
the value resolved at iteration 0; a page sink failure carries `dest`
equal to the page's batch outcome. -/
theorem spex_c9_error_payload_witness :
    (DriverError.mk (.str "x") 1 1 (some (.num 7)) none 0).source =
      some (if (1 : Nat) = 0 then JSVal.undef else (seqFailAt1Sample.src 0).okValue) ∧
    (DriverError.mk (.str "d") 0 4 none (some (.arr [.num 1])) 0).dest =
      some (.arr [.num 1]) := by
  have A := (spex_c9_error_payload.1 seqFailAt1Sample 2
    ⟨.str "x", 1, 1, some (.num 7), none, 0⟩ ⟨4, 0, 0, .num 7, []⟩
    [⟨⟨0, .undef, none⟩, none, some ⟨false, false, .microtask⟩⟩,
     ⟨⟨1, .num 7, some 0⟩, none, none⟩] rfl).1 (.str "x") false rfl
  have B := (spex_c9_error_payload.2 pageSinkThrowSample 1
    ⟨.str "d", 0, 4, none, some (.arr [.num 1]), 0⟩ ⟨4, 0, 0, .arr [.num 1], 1⟩
    [⟨⟨0, .undef, none⟩, some ⟨0, .arr [.num 1], none⟩, none⟩] rfl).2
    [.num 1] false [.num 1] rfl rfl
  exact ⟨A, B⟩

/-- C10 witness: a fractional limit of one half is normalized to 0
(unlimited) and five halves to its integer part 2. -/
theorem spex_c10_limit_normalization_witness :
    normalizeLimit (some (1 / 2 : ℚ)) = 0 ∧
    normalizeLimit (some (5 / 2 : ℚ)) = ⌊(5 / 2 : ℚ)⌋.toNat ∧
    0 < normalizeLimit (some (5 / 2 : ℚ)) :=
  ⟨spex_c10_limit_normalization.2.2.2.2.2.1 (1 / 2) (by norm_num) (by norm_num),
   (spex_c10_limit_normalization.2.2.2.2.2.2 (5 / 2) (by norm_num)).1,
   (spex_c10_limit_normalization.2.2.2.2.2.2 (5 / 2) (by norm_num)).2⟩

end Spex
